import Mathlib

/-!
Verification of the result-aggregation layer (`src/lib/result.d.ts`) of the
postcss repository.  The repository ships only the TypeScript declaration file
for `Result`; where a claim depends on behaviour whose implementation is not
under `src/`, the operation is modelled from the spec, as indicated on each
definition's doc comment.
-/

namespace Postcss

/-- A 1-based source position (line, column), mirroring the position model the
spec uses for warnings. -/
structure Pos where
  line : Nat
  column : Nat
deriving DecidableEq

/-- Modelled from the spec: a tree node as this core sees it (§6 "Tree"):
a recorded start position and a raw source-text slice.  The node type itself
(`src/lib/node.d.ts`) is not under `src/`. -/
structure Node where
  start : Pos
  raw : String
deriving DecidableEq

/-- Modelled from the spec: the document tree (`Root`, not under `src/`);
this core only hands it to the stringifier, so a list of nodes suffices. -/
structure Root where
  nodes : List Node
deriving DecidableEq

/-- Modelled from the spec: the pipeline configuration (`Processor`, not
under `src/`); it exposes plugin names for default attribution and is
otherwise opaque (§6). -/
structure Processor where
  plugins : List String
deriving DecidableEq

/-- `ResultOptions` (result.d.ts lines 23-34 together with the spec's §3
`options`): map-generation options, the input-identity information needed to
build a map, the name of the plugin currently executing (used to auto-stamp
warnings), and the optional default blame node. -/
structure ResultOptions where
  mapRequested : Bool
  hasInputIdentity : Bool
  plugin : Option String
  node : Option Node
deriving DecidableEq

/-- `WarningOptions` as accepted by `Result.warn` (result.d.ts line 170). -/
structure WarningOptions where
  plugin : Option String := none
  node : Option Node := none
  word : Option String := none
deriving DecidableEq

/-- Advance a position over one character: a newline increments the line and
resets the column to 1; any other character advances the column. -/
def stepPos (p : Pos) (c : Char) : Pos :=
  if c = '\n' then { line := p.line + 1, column := 1 }
  else { line := p.line, column := p.column + 1 }

/-- Advance a position over a sequence of characters (spec §4.2 rule 3:
"advanced by `k` characters, accounting for embedded newlines"). -/
def advancePos : Pos → List Char → Pos
  | p, [] => p
  | p, c :: rest => advancePos (stepPos p c) rest

/-- `leadsWith w s` holds when `w` occurs at the very beginning of `s`. -/
def leadsWith : List Char → List Char → Bool
  | [], _ => true
  | _ :: _, [] => false
  | a :: as, b :: bs => a == b && leadsWith as bs

/-- Index of the first occurrence of `w` inside `s`, if any. -/
def firstIndexOf : List Char → List Char → Option Nat
  | [], w => if w.isEmpty then some 0 else none
  | c :: rest, w =>
    if leadsWith w (c :: rest) then some 0
    else (firstIndexOf rest w).map (fun k => k + 1)

/-- Modelled from the spec: position resolution for warnings (§4.2), whose
implementation (`src/lib/warning.js`) is not under `src/`: no node means the
position is absent; a node without a word gives the node's recorded start; a
node with a word gives the node's start advanced by the offset of the first
occurrence of the word in the node's raw text, falling back to the node's
start when the word is not found. -/
def resolvePosition (node : Option Node) (word : Option String) : Option Pos :=
  match node with
  | none => none
  | some n =>
    match word with
    | none => some n.start
    | some w =>
      match firstIndexOf n.raw.toList w.toList with
      | none => some n.start
      | some k => some (advancePos n.start (n.raw.toList.take k))

/-- A `Warning` (spec §3): message text, plugin attribution, the optional node
and word passed through, and the derived position. -/
structure Warning where
  text : String
  plugin : Option String
  node : Option Node
  word : Option String
  pos : Option Pos
deriving DecidableEq

/-- A `Message` / DiagnosticMessage (result.d.ts lines 9-21): either the
distinguished warning kind or a plugin-defined custom kind carrying its plugin
attribution. -/
inductive Message where
  | warning (w : Warning)
  | custom (kind : String) (plugin : String)
deriving DecidableEq

/-- The `kind` discriminator of a diagnostic (spec §3). -/
def Message.kind : Message → String
  | .warning _ => "warning"
  | .custom k _ => k

/-- A source-map artifact; opaque to this core (spec §4.3), kept abstract as
its serialized payload. -/
structure SourceMapArtifact where
  payload : String
deriving DecidableEq

/-- `SerializationError` (spec §7): carries the offending node reference. -/
structure SerializationError where
  node : Node
deriving DecidableEq

/-- Errors surfaced by `text()` / `sourceMap()` (spec §7 taxonomy). -/
inductive CoreError where
  | invalidConfig
  | serialization (e : SerializationError)
deriving DecidableEq

/-- Error from a diagnostic append: the only validation is that a warning's
message text is non-empty (spec §7). -/
inductive AppendError where
  | emptyText
deriving DecidableEq

/-- The TransformationResult state (result.d.ts lines 52-134, spec §3):
pipeline reference, tree, options, the ordered diagnostics log, the caches for
text and source map, and an instrumentation counter of stringification walks
used to state the "at most one walk / no recomputation" properties. -/
structure Result where
  processor : Processor
  tree : Root
  opts : ResultOptions
  messages : List Message
  cachedText : Option String
  cachedMap : Option SourceMapArtifact
  walkCount : Nat
deriving DecidableEq

/-- The external stringifier (spec §6): one walk yields the text and the map
material; it may fail with a `SerializationError`. -/
def Stringifier : Type :=
  Root → ResultOptions → Except SerializationError (String × SourceMapArtifact)

/-- Modelled from the spec: the `Result` constructor (result.d.ts line 134,
spec §4.1 construct): stores references, starts with an empty diagnostics log,
and does not eagerly stringify — construction is total. -/
def mkResult (processor : Processor) (tree : Root) (opts : ResultOptions) : Result :=
  { processor := processor
    tree := tree
    opts := opts
    messages := []
    cachedText := none
    cachedMap := none
    walkCount := 0 }

/-- Caller-side tree mutation after construction (spec §3 lifecycle notes):
replaces the tree, leaving options, diagnostics and caches untouched. -/
def setTree (r : Result) (t : Root) : Result :=
  { r with tree := t }

/-- Modelled from the spec: whether the configuration cannot produce a
requested source map (§4.1 construct / §7 `InvalidConfigError`): a map is
requested but the input-identity information needed to build one is missing. -/
def badMapConfig (o : ResultOptions) : Bool :=
  o.mapRequested && !o.hasInputIdentity

/-- Modelled from the spec: the single stringification walk (§4.1 `text()`):
checks the configuration, runs the stringifier once, and caches both the text
and (when requested) the map artifact from that same walk. -/
def computeNow (S : Stringifier) (r : Result) :
    Except CoreError (String × Option SourceMapArtifact × Result) :=
  if badMapConfig r.opts then .error .invalidConfig
  else
    match S r.tree r.opts with
    | .error e => .error (.serialization e)
    | .ok (t, m) =>
      .ok (t, if r.opts.mapRequested then some m else none,
        { r with
          cachedText := some t
          cachedMap := if r.opts.mapRequested then some m else none
          walkCount := r.walkCount + 1 })

/-- Modelled from the spec: `text()` (the `css` value, result.d.ts line 111,
spec §4.1): returns the cached serialized string, computing it on first
access; the updated result state is returned alongside. -/
def text (S : Stringifier) (r : Result) : Except CoreError (String × Result) :=
  match r.cachedText with
  | some s => .ok (s, r)
  | none =>
    match computeNow S r with
    | .error e => .error e
    | .ok (t, _, r') => .ok (t, r')

/-- Modelled from the spec: `sourceMap()` (the `map` value, result.d.ts line
127, spec §4.1): returns the cached artifact, or an explicit absent value when
map generation was not requested, triggering the same lazy computation as
`text()`. -/
def sourceMap (S : Stringifier) (r : Result) :
    Except CoreError (Option SourceMapArtifact × Result) :=
  match r.cachedText with
  | some _ => .ok (r.cachedMap, r)
  | none =>
    match computeNow S r with
    | .error e => .error e
    | .ok (_, m, r') => .ok (m, r')

/-- Modelled from the spec: `toText()` / `toString` (result.d.ts line 155):
an alias returning exactly the `text()` value. -/
def toText (S : Stringifier) (r : Result) : Except CoreError (String × Result) :=
  text S r

/-- Modelled from the spec: the `content` accessor (result.d.ts line 144:
"An alias for the `Result#css` property"). -/
def content (S : Stringifier) (r : Result) : Except CoreError (String × Result) :=
  text S r

/-- Modelled from the spec: implicit string coercion of the result
(result.d.ts line 150: `result + '' === result.css`). -/
def coerceToString (S : Stringifier) (r : Result) : Except CoreError (String × Result) :=
  text S r

/-- Modelled from the spec: construction of the Warning appended by `warn`
(§4.1): the explicit plugin option wins, otherwise the plugin currently
attributed to the result's options; node and word pass through unchanged; the
position is resolved per §4.2. -/
def mkWarning (ropts : ResultOptions) (msg : String) (o : WarningOptions) : Warning :=
  { text := msg
    plugin := match o.plugin with
              | some p => some p
              | none => ropts.plugin
    node := o.node
    word := o.word
    pos := resolvePosition o.node o.word }

/-- Modelled from the spec: `warn` (result.d.ts line 170, spec §4.1): builds a
Warning and appends it to the diagnostics log; the declared return type is
`void`, so only the updated result is produced.  The only validation is the
non-empty message text required by §7. -/
def warn (r : Result) (msg : String) (o : WarningOptions) : Except AppendError Result :=
  if msg = "" then .error .emptyText
  else .ok { r with messages := r.messages ++ [Message.warning (mkWarning r.opts msg o)] }

/-- A sequence of `warn` calls, performed in order. -/
def warnAll (r : Result) : List (String × WarningOptions) → Except AppendError Result
  | [] => .ok r
  | (msg, o) :: rest =>
    match warn r msg o with
    | .error e => .error e
    | .ok r' => warnAll r' rest

/-- Modelled from the spec: `diagnosticsOfKind` (spec §4.1, generalizing
`warnings()`): the diagnostics of the given kind, in append order. -/
def diagnosticsOfKind (r : Result) (k : String) : List Message :=
  r.messages.filter (fun m => m.kind == k)

/-- Modelled from the spec: `warnings()` (result.d.ts line 184): filters the
`Warning` instances out of `messages`, in order. -/
def warnings (r : Result) : List Warning :=
  r.messages.filterMap (fun m =>
    match m with
    | .warning w => some w
    | .custom _ _ => none)

/-- Decidable equality for `Except`, needed to evaluate concrete calls of the
embedded operations inside witnesses. -/
instance instDecEqExcept {a b : Type} [DecidableEq a] [DecidableEq b] :
    DecidableEq (Except a b) := fun
  | .ok x, .ok y => decidable_of_iff (x = y) (by simp)
  | .error x, .error y => decidable_of_iff (x = y) (by simp)
  | .ok _, .error _ => isFalse (by simp)
  | .error _, .ok _ => isFalse (by simp)

/-- A concrete node: raw text `"color: red"` recorded at line 3, column 1. -/
def demoNode : Node := { start := { line := 3, column := 1 }, raw := "color: red" }

/-- Concrete options: no map requested, current plugin `"autoprefixer"`. -/
def demoOpts : ResultOptions :=
  { mapRequested := false, hasInputIdentity := true, plugin := some "autoprefixer", node := none }

/-- A concrete one-node tree. -/
def demoRoot : Root := { nodes := [demoNode] }

/-- A concrete pipeline configuration. -/
def demoProcessor : Processor := { plugins := ["autoprefixer"] }

/-- A freshly constructed concrete result. -/
def demoResult : Result := mkResult demoProcessor demoRoot demoOpts

/-- A concrete stringifier: serializes the first node's raw text. -/
def demoStringifier : Stringifier := fun t _ =>
  .ok ((t.nodes.headD demoNode).raw, { payload := "map" })

/-- `demoResult` after its one stringification walk. -/
def demoCached : Result := { demoResult with cachedText := some "color: red", walkCount := 1 }

/-- Two concrete `warn` calls. -/
def demoCalls : List (String × WarningOptions) :=
  [("first warning", {}), ("second warning", { plugin := some "other-plugin" })]

/-- `demoResult` after the two `warn` calls of `demoCalls`. -/
def demoWarnedTwice : Result :=
  { demoResult with
    messages := demoCalls.map (fun c => Message.warning (mkWarning demoResult.opts c.1 c.2)) }

/-- Options that request a source map without the input identity needed for it. -/
def badOpts : ResultOptions :=
  { mapRequested := true, hasInputIdentity := false, plugin := none, node := none }

/-- Options that request a source map and can produce one. -/
def mapOpts : ResultOptions :=
  { mapRequested := true, hasInputIdentity := true, plugin := none, node := none }

/-- A fresh result whose configuration requests a source map. -/
def mapResult : Result := mkResult demoProcessor demoRoot mapOpts

/-- `mapResult` after its one shared stringification walk. -/
def mapCached : Result :=
  { mapResult with
    cachedText := some "color: red", cachedMap := some { payload := "map" }, walkCount := 1 }

/-- A stringifier that fails on an empty tree, blaming `demoNode`. -/
def failingStringifier : Stringifier := fun t _ =>
  match t.nodes with
  | [] => .error { node := demoNode }
  | n :: _ => .ok (n.raw, { payload := "map" })

/-- A fresh result over an empty tree. -/
def emptyResult : Result := mkResult demoProcessor { nodes := [] } demoOpts

/-- `demoResult` after one `warn` call with message `"first warning"`. -/
def demoWarnedOnce : Result :=
  { demoResult with
    messages := [Message.warning (mkWarning demoResult.opts "first warning" {})] }

/-- A successful `warn` with a non-empty message appends exactly one warning
message built by `mkWarning`. -/
theorem warn_eq_ok (r : Result) (msg : String) (o : WarningOptions) (h : msg ≠ "") :
    warn r msg o =
      .ok { r with messages := r.messages ++ [Message.warning (mkWarning r.opts msg o)] } := by
  simp [warn, h]

/-- Serving `text` from a populated cache returns the cached string with the
state unchanged. -/
theorem text_of_cached {S : Stringifier} {r : Result} {s : String}
    (h : r.cachedText = some s) : text S r = .ok (s, r) := by
  unfold text
  rw [h]

/-- A successful stringification walk produces exactly the state with both
caches filled and the walk counter bumped once. -/
theorem computeNow_ok {S : Stringifier} {r r' : Result} {t : String}
    {m : Option SourceMapArtifact}
    (h : computeNow S r = .ok (t, m, r')) :
    r' = { r with cachedText := some t, cachedMap := m, walkCount := r.walkCount + 1 } := by
  unfold computeNow at h
  split at h
  · exact absurd h (by simp)
  · split at h
    · exact absurd h (by simp)
    · simp only [Except.ok.injEq, Prod.mk.injEq] at h
      obtain ⟨h1, h2, h3⟩ := h
      rw [← h3, ← h2, ← h1]

/-- After any successful `text` call the returned state holds the returned
string in its cache. -/
theorem text_ok_inv {S : Stringifier} {r r' : Result} {s : String}
    (h : text S r = .ok (s, r')) : r'.cachedText = some s := by
  unfold text at h
  split at h
  next s0 hc =>
    simp only [Except.ok.injEq, Prod.mk.injEq] at h
    obtain ⟨h1, h2⟩ := h
    rw [← h2, hc, h1]
  next hc =>
    split at h
    · exact absurd h (by simp)
    next t m r2 heq =>
      simp only [Except.ok.injEq, Prod.mk.injEq] at h
      obtain ⟨h1, h2⟩ := h
      rw [← h2, computeNow_ok heq, h1]

/-- A sequence of `warn` calls with non-empty messages succeeds and appends
exactly the corresponding warnings, in order, after the existing log. -/
theorem warnAll_ok (calls : List (String × WarningOptions)) :
    ∀ r : Result, (∀ c ∈ calls, c.1 ≠ "") →
    ∃ r', warnAll r calls = .ok r' ∧
      r'.opts = r.opts ∧
      r'.messages = r.messages ++
        calls.map (fun c => Message.warning (mkWarning r.opts c.1 c.2)) := by
  induction calls with
  | nil => exact fun r _ => ⟨r, rfl, rfl, by simp [warnAll]⟩
  | cons c rest ih =>
    intro r h
    obtain ⟨msg, o⟩ := c
    have hc : msg ≠ "" := h (msg, o) (by simp)
    have hrest : ∀ d ∈ rest, d.1 ≠ "" := fun d hd => h d (by simp [hd])
    obtain ⟨r', hw, hopts, hmsgs⟩ :=
      ih { r with messages := r.messages ++ [Message.warning (mkWarning r.opts msg o)] } hrest
    refine ⟨r', ?_, hopts, ?_⟩
    · simp [warnAll, warn_eq_ok r msg o hc, hw]
    · simp only [hmsgs, List.map_cons, List.append_assoc, List.singleton_append]

/-- Filtering a list mapped through an always-`some` function is the plain
map. -/
theorem filterMap_some_eq_map {a b : Type} (f : a → b) (l : List a) :
    l.filterMap (fun x => some (f x)) = l.map f := by
  induction l with
  | nil => rfl
  | cons x xs ih => simp [List.filterMap_cons, ih]

/-- Claim C1: for every sequence of `warn()` calls on a result, the
warnings-only view (`diagnosticsOfKind "warning"` / `warnings`) returns
exactly the warnings created by those calls, in the exact order the calls were
made, with no loss or reordering; the underlying diagnostics sequence never
shrinks or reorders after an append (the prior log stays as an untouched
prefix). -/
theorem warn_sequence_order (r : Result) (calls : List (String × WarningOptions))
    (h : ∀ c ∈ calls, c.1 ≠ "") :
    ∃ r', warnAll r calls = .ok r' ∧
      r'.messages = r.messages ++
        calls.map (fun c => Message.warning (mkWarning r.opts c.1 c.2)) ∧
      diagnosticsOfKind r' "warning" = diagnosticsOfKind r "warning" ++
        calls.map (fun c => Message.warning (mkWarning r.opts c.1 c.2)) ∧
      warnings r' = warnings r ++ calls.map (fun c => mkWarning r.opts c.1 c.2) := by
  obtain ⟨r', hw, hopts, hmsgs⟩ := warnAll_ok calls r h
  refine ⟨r', hw, hmsgs, ?_, ?_⟩
  · simp [diagnosticsOfKind, hmsgs, List.filter_append, List.filter_map, Function.comp_def,
      Message.kind, List.filter_true]
  · simp [warnings, hmsgs, List.filterMap_append, List.filterMap_map, Function.comp_def,
      filterMap_some_eq_map]

/-- Claim C2: `text()` is computed at most once and cached: a successful call
leaves the string in the cache, a second call with no intervening appends
returns the identical string with the state (walk counter included) unchanged,
and the cached value is stable even if the tree is mutated afterward. -/
theorem text_cached_stable (S : Stringifier) (r : Result) (s : String) (r' : Result)
    (h : text S r = .ok (s, r')) :
    r'.cachedText = some s ∧
    text S r' = .ok (s, r') ∧
    (∀ t : Root, text S (setTree r' t) = .ok (s, setTree r' t)) := by
  have hc := text_ok_inv h
  exact ⟨hc, text_of_cached hc, fun t => text_of_cached hc⟩

/-- Claim C3: construction is total — for a configuration that requests a
source map but lacks the input-identity information, `mkResult` still yields
the plain stored-references state (no error at construction), and the
`InvalidConfigError` surfaces only on first access of `text()` or
`sourceMap()`. -/
theorem construction_total_error_deferred (S : Stringifier)
    (p : Processor) (t : Root) (o : ResultOptions)
    (hreq : o.mapRequested = true) (hid : o.hasInputIdentity = false) :
    mkResult p t o =
      { processor := p, tree := t, opts := o, messages := [],
        cachedText := none, cachedMap := none, walkCount := 0 } ∧
    text S (mkResult p t o) = .error .invalidConfig ∧
    sourceMap S (mkResult p t o) = .error .invalidConfig := by
  refine ⟨rfl, ?_, ?_⟩ <;>
    simp [text, sourceMap, mkResult, computeNow, badMapConfig, hreq, hid]

/-- Claim C4: a warning created with a node whose raw text contains the word
at offset `k` resolves to the node's start position advanced by the first `k`
characters of that text, newlines incrementing the line and resetting the
column; instantiated by the witness at word `"red"` in `"color: red"` from
line 3 column 1, giving line 3 column 8. -/
theorem warn_word_position (r : Result) (msg : String) (o : WarningOptions)
    (n : Node) (w : String) (k : Nat)
    (hm : msg ≠ "") (hn : o.node = some n) (hw : o.word = some w)
    (hk : firstIndexOf n.raw.toList w.toList = some k) :
    ∃ r', warn r msg o = .ok r' ∧
      warnings r' = warnings r ++ [mkWarning r.opts msg o] ∧
      (mkWarning r.opts msg o).pos = some (advancePos n.start (n.raw.toList.take k)) := by
  refine ⟨_, warn_eq_ok r msg o hm, ?_, ?_⟩
  · simp [warnings, List.filterMap_append]
  · have hk' : firstIndexOf n.raw.data w.data = some k := hk
    simp [mkWarning, resolvePosition, hn, hw, hk']

/-- Claim C5: `warn` with no explicit plugin option attributes the created
warning to the plugin recorded in the result's options, while an explicit
plugin option overrides it; the supplied node and word pass through
unchanged. -/
theorem warn_plugin_attribution (r : Result) (msg : String) (o : WarningOptions)
    (hm : msg ≠ "") :
    ∃ r', warn r msg o = .ok r' ∧
      warnings r' = warnings r ++ [mkWarning r.opts msg o] ∧
      (mkWarning r.opts msg o).plugin =
        (match o.plugin with
         | some p => some p
         | none => r.opts.plugin) ∧
      (mkWarning r.opts msg o).node = o.node ∧
      (mkWarning r.opts msg o).word = o.word ∧
      (mkWarning r.opts msg o).text = msg := by
  refine ⟨_, warn_eq_ok r msg o hm, ?_, rfl, rfl, rfl, rfl⟩
  simp [warnings, List.filterMap_append]

/-- Claim C6: a warning whose word does not occur in the node's raw text still
resolves — it falls back to the node's recorded start position — and the
diagnostic append fails validation exactly when the warning message text is
empty, never for malformed optional fields. -/
theorem warn_word_fallback (r : Result) (msg : String) (o : WarningOptions)
    (n : Node) (w : String)
    (hm : msg ≠ "") (hn : o.node = some n) (hw : o.word = some w)
    (hk : firstIndexOf n.raw.toList w.toList = none) :
    warn r msg o =
      .ok { r with messages := r.messages ++ [Message.warning (mkWarning r.opts msg o)] } ∧
    (mkWarning r.opts msg o).pos = some n.start ∧
    (∀ m : String, ∀ o' : WarningOptions, (warn r m o' = .error .emptyText ↔ m = "")) := by
  refine ⟨warn_eq_ok r msg o hm, ?_, ?_⟩
  · have hk' : firstIndexOf n.raw.data w.data = none := hk
    simp [mkWarning, resolvePosition, hn, hw, hk']
  · intro m o'
    by_cases hme : m = "" <;> simp [warn, hme]

/-- Claim C7: when stringification fails, `text()` and `sourceMap()` propagate
a `SerializationError` carrying the offending node; the caller's result keeps
its caches unset (the error returns no new state), so after caller-side tree
repair a subsequent call succeeds and performs the walk. -/
theorem serialization_error_propagates (S : Stringifier) (r : Result)
    (e : SerializationError)
    (hc : r.cachedText = none) (hb : badMapConfig r.opts = false)
    (hs : S r.tree r.opts = .error e) :
    text S r = .error (.serialization e) ∧
    sourceMap S r = .error (.serialization e) ∧
    (∀ t2 : Root, ∀ s : String, ∀ m : SourceMapArtifact,
      S t2 r.opts = .ok (s, m) →
      text S (setTree r t2) =
        .ok (s, { setTree r t2 with
                  cachedText := some s
                  cachedMap := if r.opts.mapRequested then some m else none
                  walkCount := r.walkCount + 1 })) := by
  refine ⟨?_, ?_, ?_⟩
  · simp [text, hc, computeNow, hb, hs]
  · simp [sourceMap, hc, computeNow, hb, hs]
  · intro t2 s m h2
    simp [text, setTree, hc, computeNow, hb, h2]

/-- Claim C8: the source-map artifact is present exactly when the
configuration requested map generation, and it comes from the same single
stringification walk as the text: reading `sourceMap()` first fills both
caches with one walk (the counter increases exactly once) and a following
`text()` serves the same walk's string without recomputation. -/
theorem sourceMap_single_walk (S : Stringifier) (r : Result) (s : String)
    (m : SourceMapArtifact)
    (hc : r.cachedText = none) (hb : badMapConfig r.opts = false)
    (hs : S r.tree r.opts = .ok (s, m)) :
    ∃ r', sourceMap S r = .ok ((if r.opts.mapRequested then some m else none), r') ∧
      r'.cachedText = some s ∧
      r'.cachedMap = (if r.opts.mapRequested then some m else none) ∧
      r'.walkCount = r.walkCount + 1 ∧
      r'.cachedMap.isSome = r.opts.mapRequested ∧
      text S r' = .ok (s, r') := by
  refine ⟨{ r with
            cachedText := some s
            cachedMap := if r.opts.mapRequested then some m else none
            walkCount := r.walkCount + 1 }, ?_, rfl, rfl, rfl, ?_, text_of_cached rfl⟩
  · simp [sourceMap, hc, computeNow, hb, hs]
  · by_cases hreq : r.opts.mapRequested = true <;> simp [hreq]

/-- Claim C9: all string views of a result agree with `text()`: `toText`,
the `content` accessor and implicit string coercion are, as the declaration
file documents, aliases returning exactly the `text()` value. -/
theorem string_views_agree (S : Stringifier) (r : Result) :
    toText S r = text S r ∧ content S r = text S r ∧ coerceToString S r = text S r :=
  ⟨rfl, rfl, rfl⟩

/-- Claim C10: `warn` returns no value at the public interface (its declared
return type is `void`): a successful call produces only the updated result
whose sole change is the appended message, so the created warning is
observable exclusively through the `messages` / `warnings` views. -/
theorem warn_returns_no_warning (r : Result) (msg : String) (o : WarningOptions)
    (hm : msg ≠ "") :
    warn r msg o =
      .ok { r with messages := r.messages ++ [Message.warning (mkWarning r.opts msg o)] } ∧
    (∀ r' : Result, warn r msg o = .ok r' →
      warnings r' = warnings r ++ [mkWarning r.opts msg o] ∧
      r'.cachedText = r.cachedText ∧ r'.cachedMap = r.cachedMap ∧
      r'.opts = r.opts ∧ r'.tree = r.tree ∧ r'.processor = r.processor) := by
  have hok := warn_eq_ok r msg o hm
  refine ⟨hok, ?_⟩
  intro r' h
  have : r' = { r with messages := r.messages ++ [Message.warning (mkWarning r.opts msg o)] } :=
    Except.ok.inj (h.symm.trans hok)
  subst this
  refine ⟨?_, rfl, rfl, rfl, rfl, rfl⟩
  simp [warnings, List.filterMap_append]

/-- Witness for claim C1: two concrete `warn` calls append exactly their two
warnings in call order. -/
theorem warn_sequence_order_witness :
    warnAll demoResult demoCalls = .ok demoWarnedTwice ∧
    warnings demoWarnedTwice = demoCalls.map (fun c => mkWarning demoResult.opts c.1 c.2) := by
  obtain ⟨r', h1, h2, h3, h4⟩ := warn_sequence_order demoResult demoCalls (by decide)
  have hconc : warnAll demoResult demoCalls = .ok demoWarnedTwice := by decide
  have hr : r' = demoWarnedTwice := Except.ok.inj (h1.symm.trans hconc)
  subst hr
  refine ⟨hconc, ?_⟩
  rw [h4]
  decide

/-- Witness for claim C2: a concrete first `text` call caches
`"color: red"`; the second call and a call after tree mutation both serve the
cached string unchanged. -/
theorem text_cached_stable_witness :
    text demoStringifier demoResult = .ok ("color: red", demoCached) ∧
    text demoStringifier demoCached = .ok ("color: red", demoCached) ∧
    text demoStringifier (setTree demoCached { nodes := [] }) =
      .ok ("color: red", setTree demoCached { nodes := [] }) := by
  have h : text demoStringifier demoResult = .ok ("color: red", demoCached) := by decide
  have hs := text_cached_stable demoStringifier demoResult "color: red" demoCached h
  exact ⟨h, hs.2.1, hs.2.2 { nodes := [] }⟩

/-- Witness for claim C3: with a concrete map-requesting configuration missing
input identity, construction yields the plain state and both accessors report
`InvalidConfigError`. -/
theorem construction_total_error_deferred_witness :
    mkResult demoProcessor demoRoot badOpts =
      { processor := demoProcessor, tree := demoRoot, opts := badOpts, messages := [],
        cachedText := none, cachedMap := none, walkCount := 0 } ∧
    text demoStringifier (mkResult demoProcessor demoRoot badOpts) = .error .invalidConfig ∧
    sourceMap demoStringifier (mkResult demoProcessor demoRoot badOpts) =
      .error .invalidConfig :=
  construction_total_error_deferred demoStringifier demoProcessor demoRoot badOpts rfl rfl

/-- Witness for claim C4: word `"red"` inside raw text `"color: red"` recorded
at line 3 column 1 resolves to line 3, column 8. -/
theorem warn_word_position_witness :
    warn demoResult "Avoid red" { node := some demoNode, word := some "red" } =
      .ok { demoResult with
            messages := [Message.warning
              (mkWarning demoResult.opts "Avoid red"
                { node := some demoNode, word := some "red" })] } ∧
    (mkWarning demoResult.opts "Avoid red"
      { node := some demoNode, word := some "red" }).pos =
      some { line := 3, column := 8 } := by
  obtain ⟨r', h1, h2, h3⟩ :=
    warn_word_position demoResult "Avoid red" { node := some demoNode, word := some "red" }
      demoNode "red" 7 (by decide) rfl rfl (by decide)
  refine ⟨by decide, ?_⟩
  rw [h3]
  decide

/-- Witness for claim C5: an explicit plugin option overrides the result's
current plugin, while omitting it attributes the warning to
`"autoprefixer"` from the result's options. -/
theorem warn_plugin_attribution_witness :
    warn demoResult "x" { plugin := some "foo" } =
      .ok { demoResult with
            messages := [Message.warning
              (mkWarning demoResult.opts "x" { plugin := some "foo" })] } ∧
    (mkWarning demoResult.opts "x" { plugin := some "foo" }).plugin = some "foo" ∧
    (mkWarning demoResult.opts "x" {}).plugin = some "autoprefixer" := by
  obtain ⟨r1, hw1, hws1, hp1, hrest1⟩ :=
    warn_plugin_attribution demoResult "x" { plugin := some "foo" } (by decide)
  obtain ⟨r2, hw2, hws2, hp2, hrest2⟩ :=
    warn_plugin_attribution demoResult "x" {} (by decide)
  refine ⟨by decide, ?_, ?_⟩
  · rw [hp1]
  · rw [hp2]
    decide

/-- Witness for claim C6: word `"blue"` absent from `"color: red"` falls back
to the node's start (line 3, column 1), and only an empty message makes the
append fail. -/
theorem warn_word_fallback_witness :
    (mkWarning demoResult.opts "bad value" { node := some demoNode, word := some "blue" }).pos =
      some { line := 3, column := 1 } ∧
    warn demoResult "" {} = .error .emptyText := by
  have h := warn_word_fallback demoResult "bad value"
    { node := some demoNode, word := some "blue" } demoNode "blue" (by decide) rfl rfl (by decide)
  refine ⟨?_, (h.2.2 "" {}).mpr rfl⟩
  rw [h.2.1]
  decide

/-- Witness for claim C7: a concrete failing stringification propagates the
error with the offending node, and after replacing the tree the next call
succeeds. -/
theorem serialization_error_propagates_witness :
    text failingStringifier emptyResult = .error (.serialization { node := demoNode }) ∧
    sourceMap failingStringifier emptyResult = .error (.serialization { node := demoNode }) ∧
    text failingStringifier (setTree emptyResult demoRoot) =
      .ok ("color: red", { setTree emptyResult demoRoot with
                           cachedText := some "color: red", walkCount := 1 }) := by
  have h := serialization_error_propagates failingStringifier emptyResult
    { node := demoNode } rfl (by decide) (by decide)
  refine ⟨h.1, h.2.1, ?_⟩
  have h2 := h.2.2 demoRoot "color: red" { payload := "map" } (by decide)
  rw [h2]
  decide

/-- Witness for claim C8: reading `sourceMap` first on a concrete
map-requesting result performs the one shared walk and the following `text`
serves the same walk's string. -/
theorem sourceMap_single_walk_witness :
    sourceMap demoStringifier mapResult = .ok (some { payload := "map" }, mapCached) ∧
    text demoStringifier mapCached = .ok ("color: red", mapCached) ∧
    mapCached.cachedMap.isSome = mapOpts.mapRequested := by
  obtain ⟨r', h1, h2, h3, h4, h5, h6⟩ :=
    sourceMap_single_walk demoStringifier mapResult "color: red" { payload := "map" }
      rfl (by decide) (by decide)
  have hconc : sourceMap demoStringifier mapResult = .ok (some { payload := "map" }, mapCached) := by
    decide
  have hr : r' = mapCached := congrArg Prod.snd (Except.ok.inj (h1.symm.trans hconc))
  subst hr
  exact ⟨hconc, h6, by decide⟩

/-- Witness for claim C10: a concrete `warn` call returns only the updated
result, whose appended warning is visible through the `warnings` view. -/
theorem warn_returns_no_warning_witness :
    warn demoResult "first warning" {} = .ok demoWarnedOnce ∧
    warnings demoWarnedOnce = [mkWarning demoResult.opts "first warning" {}] ∧
    demoWarnedOnce.cachedText = demoResult.cachedText := by
  obtain ⟨hw, hall⟩ := warn_returns_no_warning demoResult "first warning" {} (by decide)
  have hconc : warn demoResult "first warning" {} = .ok demoWarnedOnce := by decide
  obtain ⟨h1, h2, hrest⟩ := hall demoWarnedOnce hconc
  refine ⟨hconc, ?_, h2⟩
  rw [h1]
  decide

end Postcss
